import Mathlib

/-!
Shallow embedding of `src/io_service.hpp` (liburing4cpp): the io_uring-backed
asynchronous I/O service.  Pointers are modelled as natural numbers (`0` is the
null pointer), machine integers as `Int`/`Nat`, and the kernel ring as explicit
state.  `promise.hpp` / `task.hpp` are not part of the sources; where their
behaviour matters it is modelled from the specification (see `RootTask` and the
resolution log in `io_service`).
-/

/-- The io_uring opcodes prepared by the operation surface of `io_service`. -/
inductive Opcode where
  | readv
  | writev
  | read
  | write
  | read_fixed
  | write_fixed
  | fsync
  | sync_file_range
  | recvmsg
  | sendmsg
  | recv
  | send
  | poll_add
  | nop
  | accept
  | connect
  | timeout
  | openat
  | close
  | cancel
  deriving DecidableEq

/-- A submission-queue entry.  `addr`/`addr2` hold pointer arguments, `len` the
length-like argument, `off` the offset-like argument, `op_flags` the
opcode-specific flags (fsync flags, sync-range flags, msg flags, poll mask,
accept flags, open flags), `flags` the IOSQE flags set by
`io_uring_sqe_set_flags`, and `user_data` the pointer stored by
`io_uring_sqe_set_data` (0 = null). -/
structure SQE where
  opcode : Opcode
  fd : Int
  addr : Nat
  addr2 : Nat
  len : Nat
  off : Int
  op_flags : Nat
  flags : Nat
  user_data : Nat
  deriving DecidableEq

/-- A completion-queue entry: the user data attached to the originating SQE
(0 = null) and the signed result code `res`. -/
structure CQE where
  data : Nat
  res : Int
  deriving DecidableEq

/-- State of the kernel ring (the `io_uring` struct together with the part of
the kernel interface §6 relies on).  `sq_pending` are SQEs written but not yet
submitted (a fresh SQE is available iff this has fewer than `sq_capacity`
entries), `submitted` the SQEs handed to the kernel, `cq_queue` the visible but
not yet consumed CQEs (oldest first), `cq_head` the consumer index.
`submit_calls` / `wait_calls` count the submit and submit-and-wait calls made,
so that theorems can state that no kernel contact happens. -/
structure io_uring where
  sq_capacity : Nat
  sq_pending : List SQE
  submitted : List SQE
  cq_queue : List CQE
  cq_head : Nat
  submit_calls : Nat
  wait_calls : Nat
  deriving DecidableEq

/-- `io_uring_get_sqe` returns a non-null SQE slot iff the submission queue is
not full. -/
def io_uring_sq_has_room (r : io_uring) : Bool :=
  decide (r.sq_pending.length < r.sq_capacity)

/-- `io_uring_submit`: hand all pending SQEs to the kernel, freeing the SQ. -/
def io_uring_submit (r : io_uring) : io_uring :=
  { r with
      sq_pending := []
      submitted := r.submitted ++ r.sq_pending
      submit_calls := r.submit_calls + 1 }

/-- `io_uring_cq_advance`: consume `n` visible CQEs, advancing the consumer
index. -/
def io_uring_cq_advance (r : io_uring) (n : Nat) : io_uring :=
  { r with
      cq_queue := r.cq_queue.drop n
      cq_head := r.cq_head + n }

/-- The kernel posts, for a submitted SQE, a CQE carrying that SQE's
`user_data` unchanged together with a result code (kernel interface, §6). -/
def kernel_complete (r : io_uring) (i : Nat) (res : Int) : Option (io_uring × CQE) :=
  match r.submitted.get? i with
  | none => none
  | some q => some ({ r with cq_queue := r.cq_queue ++ [⟨q.user_data, res⟩] }, ⟨q.user_data, res⟩)

/-- State of an `io_service`: the ring, the `cqe_count` member (completions
observed but not yet consumed), plus two modelled components: `next_addr`, the
address the next constructed promise will live at (promise addresses are stable
and non-null, `promise.hpp` is modelled from the spec §4.A), and `resolved`,
the log of `promise::resolve(result)` calls performed by the driver, in order. -/
structure io_service where
  ring : io_uring
  cqe_count : Nat
  next_addr : Nat
  resolved : List (Nat × Int)
  deriving DecidableEq

/-- `io_service::io_uring_get_sqe_safe`: get an SQE slot; if the ring has no
room, flush the observed CQEs (`io_uring_cq_advance` by `cqe_count`, reset the
counter), submit the ring, and retry; the retry failing is the assert/abort
path, modelled as `none`. -/
def io_uring_get_sqe_safe (s : io_service) : Option io_service :=
  if io_uring_sq_has_room s.ring then
    some s
  else
    let r1 := io_uring_cq_advance s.ring s.cqe_count
    let r2 := io_uring_submit r1
    let s1 : io_service := { s with ring := r2, cqe_count := 0 }
    if io_uring_sq_has_room s1.ring then some s1 else none

/-- `io_uring_prep_rw(op, sqe, fd, addr, len, offset)`: the common SQE
preparation all liburing prep helpers reduce to. -/
def io_uring_prep_rw (op : Opcode) (fd : Int) (addr : Nat) (len : Nat) (off : Int) : SQE :=
  ⟨op, fd, addr, 0, len, off, 0, 0, 0⟩

def io_uring_prep_readv (fd : Int) (iovecs : Nat) (nr_vecs : Nat) (off : Int) : SQE :=
  io_uring_prep_rw .readv fd iovecs nr_vecs off

def io_uring_prep_writev (fd : Int) (iovecs : Nat) (nr_vecs : Nat) (off : Int) : SQE :=
  io_uring_prep_rw .writev fd iovecs nr_vecs off

def io_uring_prep_read (fd : Int) (buf : Nat) (nbytes : Nat) (off : Int) : SQE :=
  io_uring_prep_rw .read fd buf nbytes off

def io_uring_prep_write (fd : Int) (buf : Nat) (nbytes : Nat) (off : Int) : SQE :=
  io_uring_prep_rw .write fd buf nbytes off

/-- `io_uring_prep_read_fixed`: like read, with the registered-buffer index in
the opcode-specific field. -/
def io_uring_prep_read_fixed (fd : Int) (buf : Nat) (nbytes : Nat) (off : Int)
    (buf_index : Nat) : SQE :=
  { io_uring_prep_rw .read_fixed fd buf nbytes off with op_flags := buf_index }

def io_uring_prep_write_fixed (fd : Int) (buf : Nat) (nbytes : Nat) (off : Int)
    (buf_index : Nat) : SQE :=
  { io_uring_prep_rw .write_fixed fd buf nbytes off with op_flags := buf_index }

def io_uring_prep_fsync (fd : Int) (fsync_flags : Nat) : SQE :=
  { io_uring_prep_rw .fsync fd 0 0 0 with op_flags := fsync_flags }

def io_uring_prep_recvmsg (fd : Int) (msg : Nat) (fl : Nat) : SQE :=
  { io_uring_prep_rw .recvmsg fd msg 1 0 with op_flags := fl }

def io_uring_prep_sendmsg (fd : Int) (msg : Nat) (fl : Nat) : SQE :=
  { io_uring_prep_rw .sendmsg fd msg 1 0 with op_flags := fl }

def io_uring_prep_recv (fd : Int) (buf : Nat) (nbytes : Nat) (fl : Nat) : SQE :=
  { io_uring_prep_rw .recv fd buf nbytes 0 with op_flags := fl }

def io_uring_prep_send (fd : Int) (buf : Nat) (nbytes : Nat) (fl : Nat) : SQE :=
  { io_uring_prep_rw .send fd buf nbytes 0 with op_flags := fl }

def io_uring_prep_poll_add (fd : Int) (poll_mask : Nat) : SQE :=
  { io_uring_prep_rw .poll_add fd 0 0 0 with op_flags := poll_mask }

def io_uring_prep_nop : SQE :=
  io_uring_prep_rw .nop (-1) 0 0 0

/-- `io_uring_prep_accept(sqe, fd, addr, addrlen, flags)`; the addrlen pointer
is kept in `addr2`. -/
def io_uring_prep_accept (fd : Int) (addr : Nat) (addrlen : Nat) (fl : Nat) : SQE :=
  { io_uring_prep_rw .accept fd addr 0 0 with addr2 := addrlen, op_flags := fl }

/-- `io_uring_prep_connect(sqe, fd, addr, addrlen)`; the addrlen value is kept
in `addr2`. -/
def io_uring_prep_connect (fd : Int) (addr : Nat) (addrlen : Nat) : SQE :=
  { io_uring_prep_rw .connect fd addr 0 0 with addr2 := addrlen }

/-- `io_uring_prep_timeout(sqe, ts, count, flags)` with count = flags = 0. -/
def io_uring_prep_timeout (ts : Nat) : SQE :=
  io_uring_prep_rw .timeout (-1) ts 1 0

/-- `io_uring_prep_openat(sqe, dfd, path, flags, mode)`: mode travels in the
length field, the open flags in the opcode-specific field. -/
def io_uring_prep_openat (dfd : Int) (path : Nat) (fl : Nat) (mode : Nat) : SQE :=
  { io_uring_prep_rw .openat dfd path mode 0 with op_flags := fl }

def io_uring_prep_close (fd : Int) : SQE :=
  io_uring_prep_rw .close fd 0 0 0

def io_uring_sqe_set_flags (q : SQE) (fl : Nat) : SQE :=
  { q with flags := fl }

def io_uring_sqe_set_data (q : SQE) (d : Nat) : SQE :=
  { q with user_data := d }

/-- Write a fully populated SQE into the reserved slot. -/
def push_sqe (s : io_service) (q : SQE) : io_service :=
  { s with ring := { s.ring with sq_pending := s.ring.sq_pending ++ [q] } }

/-- `io_service::await_work(sqe, iflags)`: construct a promise (at the fresh
stable address `next_addr`), set the SQE's IOSQE flags from `iflags`, set its
user data to the promise's address, and suspend on the promise.  Returns the
new state and the promise address the caller awaits. -/
def await_work (s : io_service) (q : SQE) (iflags : Nat) : io_service × Nat :=
  let p := s.next_addr
  let q1 := io_uring_sqe_set_data (io_uring_sqe_set_flags q iflags) p
  ({ push_sqe s q1 with next_addr := p + 1 }, p)

/-- The calls of the operation surface of `io_service` (§4.D), with their
arguments.  Each constructor corresponds to one method of the source (on a
kernel with native opcode support, `LINUX_KERNEL_VERSION >= 56`). -/
inductive OpCall where
  | readv (fd : Int) (iovecs nr_vecs : Nat) (off : Int) (iflags : Nat)
  | writev (fd : Int) (iovecs nr_vecs : Nat) (off : Int) (iflags : Nat)
  | read (fd : Int) (buf nbytes : Nat) (off : Int) (iflags : Nat)
  | write (fd : Int) (buf nbytes : Nat) (off : Int) (iflags : Nat)
  | read_fixed (fd : Int) (buf nbytes : Nat) (off : Int) (buf_index iflags : Nat)
  | write_fixed (fd : Int) (buf nbytes : Nat) (off : Int) (buf_index iflags : Nat)
  | fsync (fd : Int) (fsync_flags iflags : Nat)
  | sync_file_range (fd : Int) (off : Int) (nbytes : Nat) (sync_range_flags iflags : Nat)
  | recvmsg (sockfd : Int) (msg fl iflags : Nat)
  | sendmsg (sockfd : Int) (msg fl iflags : Nat)
  | recv (sockfd : Int) (buf nbytes fl iflags : Nat)
  | send (sockfd : Int) (buf nbytes fl iflags : Nat)
  | poll (fd : Int) (poll_mask iflags : Nat)
  | yield (iflags : Nat)
  | accept (fd : Int) (addr addrlen fl iflags : Nat)
  | connect (fd : Int) (addr addrlen fl iflags : Nat)
  | timeout (ts iflags : Nat)
  | openat (dfd : Int) (path fl mode iflags : Nat)
  | close (fd : Int) (iflags : Nat)
  deriving DecidableEq

def io_service.readv (s : io_service) (fd : Int) (iovecs nr_vecs : Nat) (off : Int)
    (iflags : Nat) : Option (io_service × Nat) :=
  (io_uring_get_sqe_safe s).map fun s1 =>
    await_work s1 (io_uring_prep_readv fd iovecs nr_vecs off) iflags

def io_service.writev (s : io_service) (fd : Int) (iovecs nr_vecs : Nat) (off : Int)
    (iflags : Nat) : Option (io_service × Nat) :=
  (io_uring_get_sqe_safe s).map fun s1 =>
    await_work s1 (io_uring_prep_writev fd iovecs nr_vecs off) iflags

def io_service.read (s : io_service) (fd : Int) (buf nbytes : Nat) (off : Int)
    (iflags : Nat) : Option (io_service × Nat) :=
  (io_uring_get_sqe_safe s).map fun s1 =>
    await_work s1 (io_uring_prep_read fd buf nbytes off) iflags

def io_service.write (s : io_service) (fd : Int) (buf nbytes : Nat) (off : Int)
    (iflags : Nat) : Option (io_service × Nat) :=
  (io_uring_get_sqe_safe s).map fun s1 =>
    await_work s1 (io_uring_prep_write fd buf nbytes off) iflags

def io_service.read_fixed (s : io_service) (fd : Int) (buf nbytes : Nat) (off : Int)
    (buf_index iflags : Nat) : Option (io_service × Nat) :=
  (io_uring_get_sqe_safe s).map fun s1 =>
    await_work s1 (io_uring_prep_read_fixed fd buf nbytes off buf_index) iflags

def io_service.write_fixed (s : io_service) (fd : Int) (buf nbytes : Nat) (off : Int)
    (buf_index iflags : Nat) : Option (io_service × Nat) :=
  (io_uring_get_sqe_safe s).map fun s1 =>
    await_work s1 (io_uring_prep_write_fixed fd buf nbytes off buf_index) iflags

def io_service.fsync (s : io_service) (fd : Int) (fsync_flags iflags : Nat) :
    Option (io_service × Nat) :=
  (io_uring_get_sqe_safe s).map fun s1 =>
    await_work s1 (io_uring_prep_fsync fd fsync_flags) iflags

/-- `sync_file_range(fd, offset, nbytes, sync_range_flags, iflags)`: prepared
with the raw `io_uring_prep_rw`, then the range flags stored in the SQE. -/
def io_service.sync_file_range (s : io_service) (fd : Int) (off : Int) (nbytes : Nat)
    (sync_range_flags iflags : Nat) : Option (io_service × Nat) :=
  (io_uring_get_sqe_safe s).map fun s1 =>
    await_work s1
      { io_uring_prep_rw .sync_file_range fd 0 nbytes off with op_flags := sync_range_flags }
      iflags

def io_service.recvmsg (s : io_service) (sockfd : Int) (msg fl iflags : Nat) :
    Option (io_service × Nat) :=
  (io_uring_get_sqe_safe s).map fun s1 =>
    await_work s1 (io_uring_prep_recvmsg sockfd msg fl) iflags

def io_service.sendmsg (s : io_service) (sockfd : Int) (msg fl iflags : Nat) :
    Option (io_service × Nat) :=
  (io_uring_get_sqe_safe s).map fun s1 =>
    await_work s1 (io_uring_prep_sendmsg sockfd msg fl) iflags

def io_service.recv (s : io_service) (sockfd : Int) (buf nbytes fl iflags : Nat) :
    Option (io_service × Nat) :=
  (io_uring_get_sqe_safe s).map fun s1 =>
    await_work s1 (io_uring_prep_recv sockfd buf nbytes fl) iflags

def io_service.send (s : io_service) (sockfd : Int) (buf nbytes fl iflags : Nat) :
    Option (io_service × Nat) :=
  (io_uring_get_sqe_safe s).map fun s1 =>
    await_work s1 (io_uring_prep_send sockfd buf nbytes fl) iflags

def io_service.poll (s : io_service) (fd : Int) (poll_mask iflags : Nat) :
    Option (io_service × Nat) :=
  (io_uring_get_sqe_safe s).map fun s1 =>
    await_work s1 (io_uring_prep_poll_add fd poll_mask) iflags

def io_service.yield (s : io_service) (iflags : Nat) : Option (io_service × Nat) :=
  (io_uring_get_sqe_safe s).map fun s1 =>
    await_work s1 io_uring_prep_nop iflags

def io_service.accept (s : io_service) (fd : Int) (addr addrlen fl iflags : Nat) :
    Option (io_service × Nat) :=
  (io_uring_get_sqe_safe s).map fun s1 =>
    await_work s1 (io_uring_prep_accept fd addr addrlen fl) iflags

/-- `connect(fd, addr, addrlen, flags, iflags)`: the `flags` parameter exists in
the source signature but is not passed to `io_uring_prep_connect`. -/
def io_service.connect (s : io_service) (fd : Int) (addr addrlen _fl iflags : Nat) :
    Option (io_service × Nat) :=
  (io_uring_get_sqe_safe s).map fun s1 =>
    await_work s1 (io_uring_prep_connect fd addr addrlen) iflags

/-- The timespec-pointer overload of `timeout`. -/
def io_service.timeout (s : io_service) (ts iflags : Nat) : Option (io_service × Nat) :=
  (io_uring_get_sqe_safe s).map fun s1 =>
    await_work s1 (io_uring_prep_timeout ts) iflags

def io_service.openat (s : io_service) (dfd : Int) (path fl mode iflags : Nat) :
    Option (io_service × Nat) :=
  (io_uring_get_sqe_safe s).map fun s1 =>
    await_work s1 (io_uring_prep_openat dfd path fl mode) iflags

def io_service.close (s : io_service) (fd : Int) (iflags : Nat) :
    Option (io_service × Nat) :=
  (io_uring_get_sqe_safe s).map fun s1 =>
    await_work s1 (io_uring_prep_close fd) iflags

/-- Dispatch an `OpCall` to the corresponding method. -/
def op_apply (c : OpCall) (s : io_service) : Option (io_service × Nat) :=
  match c with
  | .readv fd iovecs nr off i => s.readv fd iovecs nr off i
  | .writev fd iovecs nr off i => s.writev fd iovecs nr off i
  | .read fd buf n off i => s.read fd buf n off i
  | .write fd buf n off i => s.write fd buf n off i
  | .read_fixed fd buf n off bi i => s.read_fixed fd buf n off bi i
  | .write_fixed fd buf n off bi i => s.write_fixed fd buf n off bi i
  | .fsync fd ff i => s.fsync fd ff i
  | .sync_file_range fd off n srf i => s.sync_file_range fd off n srf i
  | .recvmsg fd msg fl i => s.recvmsg fd msg fl i
  | .sendmsg fd msg fl i => s.sendmsg fd msg fl i
  | .recv fd buf n fl i => s.recv fd buf n fl i
  | .send fd buf n fl i => s.send fd buf n fl i
  | .poll fd pm i => s.poll fd pm i
  | .yield i => s.yield i
  | .accept fd a al fl i => s.accept fd a al fl i
  | .connect fd a al fl i => s.connect fd a al fl i
  | .timeout ts i => s.timeout ts i
  | .openat dfd p fl m i => s.openat dfd p fl m i
  | .close fd i => s.close fd i

/-- The SQE each call prepares, before `await_work` sets flags and user data. -/
def OpCall.prep : OpCall → SQE
  | .readv fd iovecs nr off _ => io_uring_prep_readv fd iovecs nr off
  | .writev fd iovecs nr off _ => io_uring_prep_writev fd iovecs nr off
  | .read fd buf n off _ => io_uring_prep_read fd buf n off
  | .write fd buf n off _ => io_uring_prep_write fd buf n off
  | .read_fixed fd buf n off bi _ => io_uring_prep_read_fixed fd buf n off bi
  | .write_fixed fd buf n off bi _ => io_uring_prep_write_fixed fd buf n off bi
  | .fsync fd ff _ => io_uring_prep_fsync fd ff
  | .sync_file_range fd off n srf _ =>
      { io_uring_prep_rw .sync_file_range fd 0 n off with op_flags := srf }
  | .recvmsg fd msg fl _ => io_uring_prep_recvmsg fd msg fl
  | .sendmsg fd msg fl _ => io_uring_prep_sendmsg fd msg fl
  | .recv fd buf n fl _ => io_uring_prep_recv fd buf n fl
  | .send fd buf n fl _ => io_uring_prep_send fd buf n fl
  | .poll fd pm _ => io_uring_prep_poll_add fd pm
  | .yield _ => io_uring_prep_nop
  | .accept fd a al fl _ => io_uring_prep_accept fd a al fl
  | .connect fd a al _ _ => io_uring_prep_connect fd a al
  | .timeout ts _ => io_uring_prep_timeout ts
  | .openat dfd p fl m _ => io_uring_prep_openat dfd p fl m
  | .close fd _ => io_uring_prep_close fd

/-- The `iflags` argument of each call (default 0 in the source). -/
def OpCall.iflagsOf : OpCall → Nat
  | .readv _ _ _ _ i => i
  | .writev _ _ _ _ i => i
  | .read _ _ _ _ i => i
  | .write _ _ _ _ i => i
  | .read_fixed _ _ _ _ _ i => i
  | .write_fixed _ _ _ _ _ i => i
  | .fsync _ _ i => i
  | .sync_file_range _ _ _ _ i => i
  | .recvmsg _ _ _ i => i
  | .sendmsg _ _ _ i => i
  | .recv _ _ _ _ i => i
  | .send _ _ _ _ i => i
  | .poll _ _ i => i
  | .yield i => i
  | .accept _ _ _ _ i => i
  | .connect _ _ _ _ i => i
  | .timeout _ i => i
  | .openat _ _ _ _ i => i
  | .close _ i => i

/-- The kernel side of the driver loop: `deliver n` is the batch of CQEs the
kernel has posted by the time the `n`-th `io_uring_submit_and_wait` call
returns (§6; the call blocks until at least one CQE is available). -/
structure KernelModel where
  deliver : Nat → List CQE

/-- `io_uring_submit_and_wait(&ring, 1)`: submit all pending SQEs, then block
until the kernel has posted at least one CQE; the newly posted CQEs become
visible at the tail of the completion queue. -/
def io_uring_submit_and_wait (k : KernelModel) (s : io_service) : io_service :=
  let r1 := io_uring_submit s.ring
  { s with
      ring :=
        { r1 with
            cq_queue := r1.cq_queue ++ k.deliver r1.wait_calls
            wait_calls := r1.wait_calls + 1 } }

/-- The body of `io_uring_for_each_cqe` for one CQE: `++cqe_count`, read the
user data, and `if (coro) coro->resolve(cqe->res)` — resolving is modelled from
the spec §4.A as appending to the resolution log. -/
def resolve_cqe (s : io_service) (c : CQE) : io_service :=
  let s1 := { s with cqe_count := s.cqe_count + 1 }
  if c.data ≠ 0 then { s1 with resolved := s1.resolved ++ [(c.data, c.res)] } else s1

/-- `io_uring_for_each_cqe`: walk every currently visible CQE, in posting
order, without blocking and without consuming them. -/
def for_each_cqe (s : io_service) : io_service :=
  s.ring.cq_queue.foldl resolve_cqe s

/-- The resolutions a batch of CQEs produces: one `(user_data, res)` pair per
CQE whose user data is non-null. -/
def resolutions (l : List CQE) : List (Nat × Int) :=
  l.filterMap fun c => if c.data = 0 then none else some (c.data, c.res)

/-- One iteration of the `run` loop body: submit-and-wait, walk every visible
CQE, then `io_uring_cq_advance(&ring, cqe_count); cqe_count = 0;`. -/
def run_iteration (k : KernelModel) (s : io_service) : io_service :=
  let s1 := io_uring_submit_and_wait k s
  let s2 := for_each_cqe s1
  { s2 with ring := io_uring_cq_advance s2.ring s2.cqe_count, cqe_count := 0 }

/-- Modelled from the spec: the root task (`task.hpp` is not among the
sources).  §3 "Root task": it exposes a done? query and a retrieve-result
query; being driven purely by the resolutions the driver performs (§4.A, §4.E),
both are modelled as functions of the resolution log. -/
structure RootTask (α : Type) where
  done : List (Nat × Int) → Bool
  result : List (Nat × Int) → α

/-- `io_service::run(t)`: `while (!t.done())` run one loop iteration; then
return `t.get_result()`.  `fuel` bounds the number of loop tests so the
function is total; `none` means the bound was exhausted, never an error of the
modelled code. -/
def io_service.run {α : Type} (k : KernelModel) (root : RootTask α) :
    Nat → io_service → Option (α × io_service)
  | 0, _ => none
  | fuel + 1, s =>
    if root.done s.resolved then some (root.result s.resolved, s)
    else io_service.run k root fuel (run_iteration k s)

/-- The payload of the `panic_on_err` adapter: the command name and whether to
report `errno` instead of the negated return value. -/
structure panic_on_err where
  command : String
  use_errno : Bool

/-- Observable outcome of a call guarded by the error adapter: either a normal
return of the integer, or a typed failure (`std::system_error`) naming the
failing command and the errno it carries. -/
inductive RegOutcome where
  | ok (ret : Int)
  | failure (command : String) (err : Int)
  deriving DecidableEq

/-- `ETIME` on Linux. -/
def ETIME : Int := 62

/-- `operator|(int ret, panic_on_err&& poe)`: on a negative return, panic with
`errno` (when `use_errno`) or with `-ret` — except that `-ETIME` is not a
panic; otherwise return `ret` unchanged.  `errno_val` is the ambient `errno`
value read in the `use_errno` branch. -/
def or_panic (ret : Int) (poe : panic_on_err) (errno_val : Int) : RegOutcome :=
  if ret < 0 then
    if poe.use_errno then
      .failure poe.command errno_val
    else
      if ret ≠ -ETIME then .failure poe.command (-ret) else .ok ret
  else
    .ok ret

/-- `register_files(files, nr_files)` given the kernel's return code `kret`
from `io_uring_register_files`. -/
def io_service.register_files (kret : Int) : RegOutcome :=
  or_panic kret ⟨"io_uring_register_files", false⟩ 0

/-- `register_files_update(off, files, nr_files)` given the kernel's return
code; note the source labels its failure "io_uring_register_files" as well. -/
def io_service.register_files_update (kret : Int) : RegOutcome :=
  or_panic kret ⟨"io_uring_register_files", false⟩ 0

/-- `unregister_files()`: returns the kernel's return code unchanged
(`noexcept`, no error adapter). -/
def io_service.unregister_files (kret : Int) : RegOutcome :=
  .ok kret

/-- `register_buffers(iovecs, nr_iovecs)` given the kernel's return code. -/
def io_service.register_buffers (kret : Int) : RegOutcome :=
  or_panic kret ⟨"io_uring_register_buffers", false⟩ 0

/-- `unregister_buffers()`: returns the kernel's return code unchanged
(`noexcept`, no error adapter). -/
def io_service.unregister_buffers (kret : Int) : RegOutcome :=
  .ok kret

/-- `dur2ts`: split a duration in nanoseconds into `timespec`-style
`(tv_sec, tv_nsec)`.  `duration_cast<seconds>` truncates toward zero, which is
truncating integer division `Int.tdiv`. -/
def dur2ts (dur : Int) : Int × Int :=
  let secs := Int.tdiv dur 1000000000
  (secs, dur - secs * 1000000000)

/-- One observable step of an operation on a kernel lacking native opcode
support (`LINUX_KERNEL_VERSION < 56`): either queue-and-await a ring operation,
or perform a blocking system call inline. -/
inductive FallbackStep where
  | ring_readv (fd : Int) (iovs : List (Nat × Nat)) (off : Int) (iflags : Nat)
  | ring_writev (fd : Int) (iovs : List (Nat × Nat)) (off : Int) (iflags : Nat)
  | ring_recvmsg (fd : Int) (iovs : List (Nat × Nat)) (fl iflags : Nat)
  | ring_sendmsg (fd : Int) (iovs : List (Nat × Nat)) (fl iflags : Nat)
  | ring_nop (iflags : Nat)
  | sys_pread (fd : Int) (buf nbytes : Nat) (off : Int)
  | sys_pwrite (fd : Int) (buf nbytes : Nat) (off : Int)
  | sys_openat (dfd : Int) (path fl mode : Nat)
  | sys_close (fd : Int)
  deriving DecidableEq

/-- Semantics of the system-call layer: what the kernel returns for each I/O
request, with iovec arrays given by content `(base, len)` and msghdrs by their
iovec array.  A ring `IORING_OP_READV`/`IORING_OP_WRITEV` completion carries
the `preadv`/`pwritev` result for its iovec array, a ring
`IORING_OP_RECVMSG`/`IORING_OP_SENDMSG` completion the `recvmsg`/`sendmsg`
result for its msghdr; a nop completes with 0. -/
structure SyscallEnv where
  preadv : Int → List (Nat × Nat) → Int → Int
  pwritev : Int → List (Nat × Nat) → Int → Int
  pread : Int → Nat → Nat → Int → Int
  pwrite : Int → Nat → Nat → Int → Int
  do_recvmsg : Int → List (Nat × Nat) → Nat → Int
  do_sendmsg : Int → List (Nat × Nat) → Nat → Int
  do_recv : Int → Nat → Nat → Nat → Int
  do_send : Int → Nat → Nat → Nat → Int
  do_openat : Int → Nat → Nat → Nat → Int
  do_close : Int → Int

/-- POSIX consistency of a syscall environment: a vectored call on a single
iovec (or a msghdr holding a single iovec) behaves as the corresponding
linear-buffer call. -/
def SyscallEnv.vec_consistent (e : SyscallEnv) : Prop :=
  (∀ fd buf nbytes off, e.preadv fd [(buf, nbytes)] off = e.pread fd buf nbytes off) ∧
  (∀ fd buf nbytes off, e.pwritev fd [(buf, nbytes)] off = e.pwrite fd buf nbytes off) ∧
  (∀ fd buf nbytes fl, e.do_recvmsg fd [(buf, nbytes)] fl = e.do_recv fd buf nbytes fl) ∧
  (∀ fd buf nbytes fl, e.do_sendmsg fd [(buf, nbytes)] fl = e.do_send fd buf nbytes fl)

/-- Result of one fallback step. -/
def FallbackStep.result (e : SyscallEnv) : FallbackStep → Int
  | .ring_readv fd iovs off _ => e.preadv fd iovs off
  | .ring_writev fd iovs off _ => e.pwritev fd iovs off
  | .ring_recvmsg fd iovs fl _ => e.do_recvmsg fd iovs fl
  | .ring_sendmsg fd iovs fl _ => e.do_sendmsg fd iovs fl
  | .ring_nop _ => 0
  | .sys_pread fd buf nbytes off => e.pread fd buf nbytes off
  | .sys_pwrite fd buf nbytes off => e.pwrite fd buf nbytes off
  | .sys_openat dfd path fl mode => e.do_openat dfd path fl mode
  | .sys_close fd => e.do_close fd

/-- The value a fallback operation co_returns: the result of its last step. -/
def trace_result (e : SyscallEnv) (l : List FallbackStep) : Int :=
  match l.getLast? with
  | some a => a.result e
  | none => 0

/-- `read` on `LINUX_KERNEL_VERSION < 56`: build `iovec iov = {buf, nbytes}`
and `co_return co_await readv(fd, &iov, 1, offset, iflags)`. -/
def read_compat_trace (fd : Int) (buf nbytes : Nat) (off : Int) (iflags : Nat) :
    List FallbackStep :=
  [.ring_readv fd [(buf, nbytes)] off iflags]

/-- `write` on `LINUX_KERNEL_VERSION < 56`. -/
def write_compat_trace (fd : Int) (buf nbytes : Nat) (off : Int) (iflags : Nat) :
    List FallbackStep :=
  [.ring_writev fd [(buf, nbytes)] off iflags]

/-- `recv` on `LINUX_KERNEL_VERSION < 56`: build `iovec iov = {buf, nbytes}`
and `msghdr msg = {.msg_iov = &iov, .msg_iovlen = 1}`, then
`co_return co_await recvmsg(sockfd, &msg, flags, iflags)`. -/
def recv_compat_trace (sockfd : Int) (buf nbytes fl iflags : Nat) :
    List FallbackStep :=
  [.ring_recvmsg sockfd [(buf, nbytes)] fl iflags]

/-- `send` on `LINUX_KERNEL_VERSION < 56`: likewise via `sendmsg` on a
single-iovec msghdr. -/
def send_compat_trace (sockfd : Int) (buf nbytes fl iflags : Nat) :
    List FallbackStep :=
  [.ring_sendmsg sockfd [(buf, nbytes)] fl iflags]

/-- `openat` on `LINUX_KERNEL_VERSION < 56`: `co_await yield(iflags);
co_return ::openat(dfd, path, flags, mode);`. -/
def openat_compat_trace (dfd : Int) (path fl mode iflags : Nat) : List FallbackStep :=
  [.ring_nop iflags, .sys_openat dfd path fl mode]

/-- `close` on `LINUX_KERNEL_VERSION < 56`: `co_await yield(iflags);
co_return ::close(fd);`. -/
def close_compat_trace (fd : Int) (iflags : Nat) : List FallbackStep :=
  [.ring_nop iflags, .sys_close fd]

/-- Modelled from the spec: claim C8's description of the compatibility
fallback — every affected operation "decays to: yield once, then perform the
blocking or vectored equivalent inline"; for `read` the blocking equivalent of
`IORING_OP_READ` is `pread`. -/
def read_fallback_spec_trace (fd : Int) (buf nbytes : Nat) (off : Int) (iflags : Nat) :
    List FallbackStep :=
  [.ring_nop iflags, .sys_pread fd buf nbytes off]

/-- The result a caller observes from `read` on a kernel with native opcode
support: the `IORING_OP_READ` completion, i.e. the `pread` result. -/
def read_native_result (e : SyscallEnv) (fd : Int) (buf nbytes : Nat) (off : Int) : Int :=
  e.pread fd buf nbytes off

def write_native_result (e : SyscallEnv) (fd : Int) (buf nbytes : Nat) (off : Int) : Int :=
  e.pwrite fd buf nbytes off

/-- The result a caller observes from `recv` on a kernel with native opcode
support: the `IORING_OP_RECV` completion, i.e. the `recv` result. -/
def recv_native_result (e : SyscallEnv) (sockfd : Int) (buf nbytes fl : Nat) : Int :=
  e.do_recv sockfd buf nbytes fl

def send_native_result (e : SyscallEnv) (sockfd : Int) (buf nbytes fl : Nat) : Int :=
  e.do_send sockfd buf nbytes fl

def openat_native_result (e : SyscallEnv) (dfd : Int) (path fl mode : Nat) : Int :=
  e.do_openat dfd path fl mode

def close_native_result (e : SyscallEnv) (fd : Int) : Int :=
  e.do_close fd

/-- A concrete, everywhere-zero syscall environment (used to instantiate
universally quantified statements). -/
def zeroEnv : SyscallEnv :=
  ⟨fun _ _ _ => 0, fun _ _ _ => 0, fun _ _ _ _ => 0, fun _ _ _ _ => 0,
   fun _ _ _ => 0, fun _ _ _ => 0, fun _ _ _ _ => 0, fun _ _ _ _ => 0,
   fun _ _ _ _ => 0, fun _ => 0⟩

/-- A service state whose submission queue has room (capacity 4, nothing
pending). -/
def sRoom : io_service :=
  ⟨⟨4, [], [], [], 0, 0, 0⟩, 0, 1, []⟩

/-- A service state whose submission queue is full (capacity 1), with two
observed-but-unconsumed CQEs (`cqe_count = 2`). -/
def sFull : io_service :=
  ⟨⟨1, [io_uring_prep_nop], [], [⟨7, 3⟩, ⟨0, 4⟩], 5, 2, 0⟩, 2, 9, []⟩

/-- A kernel that posts one batch per wait: a resolvable CQE followed by a
null-user-data CQE. -/
def kTwo : KernelModel :=
  ⟨fun _ => [⟨3, 5⟩, ⟨0, 7⟩]⟩

/-- A kernel that posts a single CQE with null user data on every wait. -/
def kNull : KernelModel :=
  ⟨fun _ => [⟨0, 99⟩]⟩

/-- A fresh service state (capacity 4, nothing in flight). -/
def sFresh : io_service :=
  ⟨⟨4, [], [], [], 0, 0, 0⟩, 0, 1, []⟩

/-- A root task that is done immediately and yields 7. -/
def rootDone : RootTask Int :=
  ⟨fun _ => true, fun _ => 7⟩

/-- A root task that is done once the driver has resolved at least one
promise; its result is the number of resolutions. -/
def rootAfterOne : RootTask Nat :=
  ⟨fun l => decide (1 ≤ l.length), fun l => l.length⟩

/-- The state `sRoom` after `yield(5)`: one nop SQE pending with IOSQE flags 5
and user data 1 (the promise address), allocator advanced. -/
def sYield : io_service :=
  ⟨⟨4, [⟨.nop, -1, 0, 0, 0, 0, 0, 5, 1⟩], [], [], 0, 0, 0⟩, 0, 2, []⟩

theorem op_apply_eq (c : OpCall) (s : io_service) :
    op_apply c s =
      (io_uring_get_sqe_safe s).map fun s1 => await_work s1 c.prep c.iflagsOf := by
  cases c <;> rfl

theorem foldl_resolve_eq (l : List CQE) (s : io_service) :
    l.foldl resolve_cqe s =
      { s with cqe_count := s.cqe_count + l.length, resolved := s.resolved ++ resolutions l } := by
  induction l generalizing s with
  | nil => simp [resolutions]
  | cons c t ih =>
    rw [List.foldl_cons, ih]
    by_cases h : c.data = 0
    · simp [resolve_cqe, resolutions, h]
      omega
    · simp [resolve_cqe, resolutions, h]
      omega

theorem run_iteration_eq (k : KernelModel) (s0 : io_service) :
    run_iteration k s0 =
      ⟨⟨s0.ring.sq_capacity, [], s0.ring.submitted ++ s0.ring.sq_pending, [],
        s0.ring.cq_head +
          (s0.cqe_count + (s0.ring.cq_queue ++ k.deliver s0.ring.wait_calls).length),
        s0.ring.submit_calls + 1, s0.ring.wait_calls + 1⟩,
       0, s0.next_addr,
       s0.resolved ++ resolutions (s0.ring.cq_queue ++ k.deliver s0.ring.wait_calls)⟩ := by
  simp only [run_iteration, io_uring_submit_and_wait, io_uring_submit, for_each_cqe]
  rw [foldl_resolve_eq]
  simp only [io_uring_cq_advance]
  simp [List.drop_eq_nil_of_le]

theorem run_eq_some_iff {α : Type} (k : KernelModel) (root : RootTask α) :
    ∀ (fuel : Nat) (s : io_service) (a : α) (s1 : io_service),
      io_service.run k root fuel s = some (a, s1) ↔
        ∃ n, n < fuel ∧
          (∀ m, m < n → root.done (((run_iteration k)^[m]) s).resolved = false) ∧
          s1 = ((run_iteration k)^[n]) s ∧ root.done s1.resolved = true ∧
          a = root.result s1.resolved := by
  intro fuel
  induction fuel with
  | zero =>
    intro s a s1
    constructor
    · intro h
      simp [io_service.run] at h
    · rintro ⟨n, hn, -⟩
      omega
  | succ fuel ih =>
    intro s a s1
    by_cases hd : root.done s.resolved = true
    · rw [io_service.run, if_pos hd]
      constructor
      · intro h
        injection h with h1
        injection h1 with ha' hs'
        subst hs'
        subst ha'
        exact ⟨0, Nat.succ_pos _, fun m hm => absurd hm (by omega),
          (Function.iterate_zero_apply _ _).symm, hd, rfl⟩
      · rintro ⟨n, hn, hprev, hs1, hdone, ha⟩
        match n with
        | 0 =>
          rw [Function.iterate_zero_apply] at hs1
          rw [ha, hs1]
        | n + 1 =>
          have h0 := hprev 0 (Nat.succ_pos _)
          rw [Function.iterate_zero_apply, hd] at h0
          exact Bool.noConfusion h0
    · have hd' : root.done s.resolved = false := by
        cases hb : root.done s.resolved
        · rfl
        · exact absurd hb hd
      rw [io_service.run, if_neg (by rw [hd']; exact Bool.false_ne_true)]
      rw [ih (run_iteration k s) a s1]
      constructor
      · rintro ⟨n, hn, hprev, hs1, hdone, ha⟩
        refine ⟨n + 1, by omega, fun m hm => ?_, ?_, hdone, ha⟩
        · match m with
          | 0 => rw [Function.iterate_zero_apply]; exact hd'
          | m + 1 =>
            rw [Function.iterate_succ_apply]
            exact hprev m (by omega)
        · rw [hs1, Function.iterate_succ_apply]
      · rintro ⟨n, hn, hprev, hs1, hdone, ha⟩
        match n with
        | 0 =>
          rw [Function.iterate_zero_apply] at hs1
          rw [hs1] at hdone
          exact absurd hdone hd
        | n + 1 =>
          refine ⟨n, by omega, fun m hm => ?_, ?_, hdone, ha⟩
          · have := hprev (m + 1) (by omega)
            rwa [Function.iterate_succ_apply] at this
          · rw [hs1, Function.iterate_succ_apply]

/-- C1: `io_uring_get_sqe_safe` never returns a null SQE slot: if the ring's
first slot request fails, it advances the CQ consumer by the pending
completion count (`cqe_count`) and resets that counter to zero, submits the
ring, and retries the slot request, which succeeds whenever the ring has any
capacity; only a failing retry is the abort path. -/
theorem get_sqe_safe_never_null (s : io_service) (h : 0 < s.ring.sq_capacity) :
    ∃ s1, io_uring_get_sqe_safe s = some s1 ∧
      (io_uring_sq_has_room s.ring = true → s1 = s) ∧
      (io_uring_sq_has_room s.ring = false →
        s1.cqe_count = 0 ∧
        s1.ring.cq_head = s.ring.cq_head + s.cqe_count ∧
        s1.ring.cq_queue = s.ring.cq_queue.drop s.cqe_count ∧
        s1.ring.sq_pending = [] ∧
        s1.ring.submitted = s.ring.submitted ++ s.ring.sq_pending ∧
        s1.ring.submit_calls = s.ring.submit_calls + 1 ∧
        s1.next_addr = s.next_addr ∧ s1.resolved = s.resolved) := by
  cases hr : io_uring_sq_has_room s.ring with
  | true =>
    refine ⟨s, ?_, fun _ => rfl, fun hc => Bool.noConfusion hc⟩
    simp only [io_uring_get_sqe_safe]
    rw [if_pos hr]
  | false =>
    have hfalse : ¬ io_uring_sq_has_room s.ring = true := by
      rw [hr]; exact Bool.false_ne_true
    refine ⟨⟨⟨s.ring.sq_capacity, [], s.ring.submitted ++ s.ring.sq_pending,
        s.ring.cq_queue.drop s.cqe_count, s.ring.cq_head + s.cqe_count,
        s.ring.submit_calls + 1, s.ring.wait_calls⟩, 0, s.next_addr, s.resolved⟩,
      ?_, fun hc => Bool.noConfusion hc,
      fun _ => ⟨rfl, rfl, rfl, rfl, rfl, rfl, rfl, rfl⟩⟩
    simp only [io_uring_get_sqe_safe]
    split
    · next hcond => exact absurd hcond hfalse
    · split
      · rfl
      · next hcond2 =>
        exfalso
        apply hcond2
        simp only [io_uring_sq_has_room, io_uring_submit, io_uring_cq_advance,
          List.length_nil, decide_eq_true_eq]
        exact h

/-- Witness for C1 at a concrete state with a full submission queue. -/
theorem get_sqe_safe_never_null_w :
    ∃ s1, io_uring_get_sqe_safe sFull = some s1 ∧
      (io_uring_sq_has_room sFull.ring = true → s1 = sFull) ∧
      (io_uring_sq_has_room sFull.ring = false →
        s1.cqe_count = 0 ∧
        s1.ring.cq_head = sFull.ring.cq_head + sFull.cqe_count ∧
        s1.ring.cq_queue = sFull.ring.cq_queue.drop sFull.cqe_count ∧
        s1.ring.sq_pending = [] ∧
        s1.ring.submitted = sFull.ring.submitted ++ sFull.ring.sq_pending ∧
        s1.ring.submit_calls = sFull.ring.submit_calls + 1 ∧
        s1.next_addr = sFull.next_addr ∧ s1.resolved = sFull.resolved) :=
  get_sqe_safe_never_null sFull (by decide)

/-- C2: `run(root)` tests root-done before each iteration and returns the
root's result as soon as it reports done; each iteration submits all pending
SQEs and waits for the kernel's batch, walks every visible CQE (incrementing
`cqe_count` and resolving exactly the promises of the non-null user-data
CQEs, in posting order), then advances the CQ consumer by the batched count
and resets the counter. -/
theorem run_drives_root_to_completion {α : Type} (k : KernelModel) (root : RootTask α)
    (fuel : Nat) (s : io_service) (a : α) (s1 : io_service) :
    (io_service.run k root fuel s = some (a, s1) ↔
      ∃ n, n < fuel ∧
        (∀ m, m < n → root.done (((run_iteration k)^[m]) s).resolved = false) ∧
        s1 = ((run_iteration k)^[n]) s ∧ root.done s1.resolved = true ∧
        a = root.result s1.resolved) ∧
    (∀ s0 : io_service, run_iteration k s0 =
      ⟨⟨s0.ring.sq_capacity, [], s0.ring.submitted ++ s0.ring.sq_pending, [],
        s0.ring.cq_head +
          (s0.cqe_count + (s0.ring.cq_queue ++ k.deliver s0.ring.wait_calls).length),
        s0.ring.submit_calls + 1, s0.ring.wait_calls + 1⟩,
       0, s0.next_addr,
       s0.resolved ++ resolutions (s0.ring.cq_queue ++ k.deliver s0.ring.wait_calls)⟩) :=
  ⟨run_eq_some_iff k root fuel s a s1, run_iteration_eq k⟩

/-- Witness for C2: a root that finishes after one resolution, driven from a
fresh state against a kernel that posts one resolvable CQE per wait. -/
theorem run_drives_root_to_completion_w :
    io_service.run kTwo rootAfterOne 2 sFresh = some (1, run_iteration kTwo sFresh) :=
  (run_drives_root_to_completion kTwo rootAfterOne 2 sFresh 1
      (run_iteration kTwo sFresh)).1.mpr
    ⟨1, by omega,
      by intro m hm; have hm0 : m = 0 := Nat.lt_one_iff.mp hm; subst hm0; decide,
      by decide, by decide, by decide⟩

/-- C3: in every driver iteration entered with `cqe_count = 0`, the CQ
consumer advances by exactly the number of CQEs observed in that batch (null
user data included) and the counter is reset to zero; likewise every
gatekeeper flush advances the consumer by exactly `cqe_count` and resets it. -/
theorem cq_consumed_exactly_once (k : KernelModel) (s : io_service)
    (h : s.cqe_count = 0) :
    ((run_iteration k s).ring.cq_head =
        s.ring.cq_head + (io_uring_submit_and_wait k s).ring.cq_queue.length ∧
      (run_iteration k s).ring.cq_queue = [] ∧
      (run_iteration k s).cqe_count = 0) ∧
    (∀ s0 s1 : io_service, io_uring_sq_has_room s0.ring = false →
      io_uring_get_sqe_safe s0 = some s1 →
      s1.ring.cq_head = s0.ring.cq_head + s0.cqe_count ∧
      s1.ring.cq_queue = s0.ring.cq_queue.drop s0.cqe_count ∧
      s1.cqe_count = 0) := by
  constructor
  · rw [run_iteration_eq]
    refine ⟨?_, rfl, rfl⟩
    simp [io_uring_submit_and_wait, io_uring_submit, h]
  · intro s0 s1 hroom hsome
    rw [io_uring_get_sqe_safe, if_neg (by rw [hroom]; exact Bool.false_ne_true)] at hsome
    by_cases h2 : io_uring_sq_has_room (io_uring_submit (io_uring_cq_advance s0.ring s0.cqe_count)) = true
    · rw [if_pos h2] at hsome
      injection hsome with hs1
      subst hs1
      exact ⟨rfl, rfl, rfl⟩
    · rw [if_neg h2] at hsome
      exact Option.noConfusion hsome

/-- Witness for C3 at a concrete state and kernel batch containing a
null-user-data CQE. -/
theorem cq_consumed_exactly_once_w :
    (((run_iteration kTwo sFresh).ring.cq_head =
        sFresh.ring.cq_head + (io_uring_submit_and_wait kTwo sFresh).ring.cq_queue.length ∧
      (run_iteration kTwo sFresh).ring.cq_queue = [] ∧
      (run_iteration kTwo sFresh).cqe_count = 0) ∧
    (∀ s0 s1 : io_service, io_uring_sq_has_room s0.ring = false →
      io_uring_get_sqe_safe s0 = some s1 →
      s1.ring.cq_head = s0.ring.cq_head + s0.cqe_count ∧
      s1.ring.cq_queue = s0.ring.cq_queue.drop s0.cqe_count ∧
      s1.cqe_count = 0)) :=
  cq_consumed_exactly_once kTwo sFresh rfl

/-- C4: every operation method acquires its slot via the gatekeeper, writes
the opcode-specific fields, sets the IOSQE flags to the caller's `iflags`
unchanged, sets the SQE's user data to the freshly constructed promise's
address, and returns the awaiter leaving the prepared SQE pending — performing
no submit of its own after the acquisition; and any kernel completion of that
SQE carries exactly that promise address back. -/
theorem op_surface_shape (c : OpCall) (s s1 : io_service) (p : Nat)
    (h : op_apply c s = some (s1, p)) :
    ∃ s0, io_uring_get_sqe_safe s = some s0 ∧
      p = s0.next_addr ∧
      s1.ring.sq_pending =
        s0.ring.sq_pending ++ [{ c.prep with flags := c.iflagsOf, user_data := p }] ∧
      s1.ring.submitted = s0.ring.submitted ∧
      s1.ring.submit_calls = s0.ring.submit_calls ∧
      s1.ring.cq_queue = s0.ring.cq_queue ∧
      s1.ring.cq_head = s0.ring.cq_head ∧
      s1.cqe_count = s0.cqe_count ∧
      s1.next_addr = s0.next_addr + 1 ∧
      s1.resolved = s0.resolved ∧
      (∀ (r : io_uring) (i : Nat) (res : Int) (r1 : io_uring) (cq : CQE),
        r.submitted.get? i = some { c.prep with flags := c.iflagsOf, user_data := p } →
        kernel_complete r i res = some (r1, cq) →
        cq.data = p ∧ cq.res = res) := by
  rw [op_apply_eq] at h
  cases hs : io_uring_get_sqe_safe s with
  | none => rw [hs] at h; exact Option.noConfusion h
  | some s0 =>
    rw [hs] at h
    simp only [Option.map_some', Option.some.injEq, Prod.mk.injEq, await_work,
      io_uring_sqe_set_data, io_uring_sqe_set_flags, push_sqe] at h
    obtain ⟨hs1, hp⟩ := h
    subst hp
    subst hs1
    refine ⟨s0, rfl, rfl, rfl, rfl, rfl, rfl, rfl, rfl, rfl, rfl, ?_⟩
    intro r i res r1 cq hget hcomp
    simp only [kernel_complete, hget] at hcomp
    injection hcomp with hpair
    injection hpair with hr1 hcq
    rw [← hcq]
    exact ⟨rfl, rfl⟩

/-- Witness for C4: `yield(5)` on a fresh state with room. -/
theorem op_surface_shape_w :
    ∃ s0, io_uring_get_sqe_safe sRoom = some s0 ∧
      1 = s0.next_addr ∧
      sYield.ring.sq_pending = s0.ring.sq_pending ++
        [{ (OpCall.yield 5).prep with flags := (OpCall.yield 5).iflagsOf, user_data := 1 }] ∧
      sYield.ring.submitted = s0.ring.submitted ∧
      sYield.ring.submit_calls = s0.ring.submit_calls ∧
      sYield.ring.cq_queue = s0.ring.cq_queue ∧
      sYield.ring.cq_head = s0.ring.cq_head ∧
      sYield.cqe_count = s0.cqe_count ∧
      sYield.next_addr = s0.next_addr + 1 ∧
      sYield.resolved = s0.resolved ∧
      (∀ (r : io_uring) (i : Nat) (res : Int) (r1 : io_uring) (cq : CQE),
        r.submitted.get? i =
          some { (OpCall.yield 5).prep with flags := (OpCall.yield 5).iflagsOf, user_data := 1 } →
        kernel_complete r i res = some (r1, cq) →
        cq.data = 1 ∧ cq.res = res) :=
  op_surface_shape (.yield 5) sRoom sYield 1 (by decide)

/-- C5 counterexample: a completion whose user data holds no promise address
is not treated as corruption and does not abort: driving one iteration over a
kernel that posts exactly one null-user-data CQE consumes it (consumer index
advances to 1), resolves nothing, and returns a normal state. -/
theorem null_user_data_consumed_cex :
    run_iteration kNull sFresh = ⟨⟨4, [], [], [], 1, 1, 1⟩, 0, 1, []⟩ := by
  decide

/-- C5 amended: for every completion whose user-data field is null, the driver
increments `cqe_count` (so the CQE is counted and later consumed) but resolves
no promise and continues normally — the per-CQE step is exactly a counter
increment. -/
theorem null_user_data_skipped (s : io_service) (c : CQE) (h : c.data = 0) :
    resolve_cqe s c = { s with cqe_count := s.cqe_count + 1 } := by
  simp [resolve_cqe, h]

/-- Witness for the amended C5. -/
theorem null_user_data_skipped_w :
    resolve_cqe sFresh ⟨0, 99⟩ = { sFresh with cqe_count := sFresh.cqe_count + 1 } :=
  null_user_data_skipped sFresh ⟨0, 99⟩ rfl

/-- C6: the error adapter with `use_errno = false` maps every negative return
value to a typed failure naming the command and the errno `-ret`, except that
`-ETIME` is returned as-is and never raised; every non-negative return value
passes through unchanged. -/
theorem panic_on_err_adapter (cmd : String) (ret errno_val : Int) :
    (ret < 0 → ret ≠ -ETIME →
      or_panic ret ⟨cmd, false⟩ errno_val = .failure cmd (-ret)) ∧
    or_panic (-ETIME) ⟨cmd, false⟩ errno_val = .ok (-ETIME) ∧
    (0 ≤ ret → or_panic ret ⟨cmd, false⟩ errno_val = .ok ret) := by
  refine ⟨fun h1 h2 => ?_, ?_, fun h3 => ?_⟩
  · simp [or_panic, h1, h2]
  · norm_num [or_panic, ETIME]
  · have hn : ¬ ret < 0 := not_lt.mpr h3
    simp [or_panic, hn]

/-- Witness for C6 at `ret = -5` (errno 5) with the adapter's branches
discharged concretely. -/
theorem panic_on_err_adapter_w :
    or_panic (-5) ⟨"queue_init", false⟩ 0 = .failure "queue_init" 5 := by
  have h := (panic_on_err_adapter "queue_init" (-5) 0).1 (by norm_num) (by decide)
  simpa using h

/-- C7 counterexample: a negative kernel return code from `unregister_files`
(or `unregister_buffers`) is returned to the caller unchanged, not surfaced as
a typed failure — unlike `register_files`. -/
theorem unregister_no_failure_cex :
    io_service.unregister_files (-9) = RegOutcome.ok (-9) ∧
    io_service.unregister_buffers (-9) = RegOutcome.ok (-9) ∧
    io_service.register_files (-9) = RegOutcome.failure "io_uring_register_files" 9 := by
  decide

/-- C7 amended: `register_files`, `register_files_update` and
`register_buffers` surface a negative kernel return (other than `-ETIME`) as a
typed failure carrying the adapter's command string (the update path reuses
the label "io_uring_register_files") and the errno; `unregister_files` and
`unregister_buffers` return the kernel's code unchanged and never raise. -/
theorem registration_error_paths (kret : Int) :
    (kret < 0 → kret ≠ -ETIME →
      io_service.register_files kret = .failure "io_uring_register_files" (-kret) ∧
      io_service.register_files_update kret = .failure "io_uring_register_files" (-kret) ∧
      io_service.register_buffers kret = .failure "io_uring_register_buffers" (-kret)) ∧
    (0 ≤ kret →
      io_service.register_files kret = .ok kret ∧
      io_service.register_files_update kret = .ok kret ∧
      io_service.register_buffers kret = .ok kret) ∧
    io_service.unregister_files kret = .ok kret ∧
    io_service.unregister_buffers kret = .ok kret := by
  refine ⟨fun h1 h2 => ?_, fun h3 => ?_, rfl, rfl⟩
  · refine ⟨?_, ?_, ?_⟩ <;>
      simp [io_service.register_files, io_service.register_files_update,
        io_service.register_buffers, or_panic, h1, h2]
  · have hn : ¬ kret < 0 := not_lt.mpr h3
    refine ⟨?_, ?_, ?_⟩ <;>
      simp [io_service.register_files, io_service.register_files_update,
        io_service.register_buffers, or_panic, hn]

/-- Witness for the amended C7 at `kret = -9`. -/
theorem registration_error_paths_w :
    io_service.register_files (-9) = RegOutcome.failure "io_uring_register_files" 9 ∧
    io_service.unregister_files (-9) = RegOutcome.ok (-9) := by
  have h := registration_error_paths (-9)
  refine ⟨?_, h.2.2.1⟩
  have h1 := (h.1 (by norm_num) (by decide)).1
  simpa using h1

/-- C8 counterexample: on a pre-5.6 kernel, `read` does not decay to
"yield once, then the blocking/vectored equivalent inline"; it performs a
single asynchronous ring `readv` over one iovec, with no yield and no inline
system call. -/
theorem read_fallback_no_yield_cex :
    read_compat_trace 3 100 4 0 0 = [FallbackStep.ring_readv 3 [(100, 4)] 0 0] ∧
    read_compat_trace 3 100 4 0 0 ≠ read_fallback_spec_trace 3 100 4 0 0 := by
  decide

/-- C8 amended: on a pre-5.6 kernel, `openat` and `close` decay to yield-once
followed by the blocking syscall inline, while `read`/`write` decay to the
vectored ring equivalent (`readv`/`writev` on a single iovec, no yield) and
`recv`/`send` decay to `recvmsg`/`sendmsg` on a single-iovec msghdr (no
yield); in every case, for a POSIX-consistent syscall layer, the result
observed by the caller equals the native path's result. -/
theorem fallback_equivalence (e : SyscallEnv) (fd dfd sockfd : Int)
    (buf nbytes path fl mode iflags sbuf snbytes mflags : Nat) (off : Int)
    (h : e.vec_consistent) :
    openat_compat_trace dfd path fl mode iflags =
      [.ring_nop iflags, .sys_openat dfd path fl mode] ∧
    close_compat_trace fd iflags = [.ring_nop iflags, .sys_close fd] ∧
    trace_result e (openat_compat_trace dfd path fl mode iflags) =
      openat_native_result e dfd path fl mode ∧
    trace_result e (close_compat_trace fd iflags) = close_native_result e fd ∧
    read_compat_trace fd buf nbytes off iflags =
      [.ring_readv fd [(buf, nbytes)] off iflags] ∧
    write_compat_trace fd buf nbytes off iflags =
      [.ring_writev fd [(buf, nbytes)] off iflags] ∧
    trace_result e (read_compat_trace fd buf nbytes off iflags) =
      read_native_result e fd buf nbytes off ∧
    trace_result e (write_compat_trace fd buf nbytes off iflags) =
      write_native_result e fd buf nbytes off ∧
    recv_compat_trace sockfd sbuf snbytes mflags iflags =
      [.ring_recvmsg sockfd [(sbuf, snbytes)] mflags iflags] ∧
    send_compat_trace sockfd sbuf snbytes mflags iflags =
      [.ring_sendmsg sockfd [(sbuf, snbytes)] mflags iflags] ∧
    trace_result e (recv_compat_trace sockfd sbuf snbytes mflags iflags) =
      recv_native_result e sockfd sbuf snbytes mflags ∧
    trace_result e (send_compat_trace sockfd sbuf snbytes mflags iflags) =
      send_native_result e sockfd sbuf snbytes mflags := by
  obtain ⟨h1, h2, h3, h4⟩ := h
  refine ⟨rfl, rfl, rfl, rfl, rfl, rfl, ?_, ?_, rfl, rfl, ?_, ?_⟩
  · simpa [trace_result, read_compat_trace, FallbackStep.result,
      read_native_result] using h1 fd buf nbytes off
  · simpa [trace_result, write_compat_trace, FallbackStep.result,
      write_native_result] using h2 fd buf nbytes off
  · simpa [trace_result, recv_compat_trace, FallbackStep.result,
      recv_native_result] using h3 sockfd sbuf snbytes mflags
  · simpa [trace_result, send_compat_trace, FallbackStep.result,
      send_native_result] using h4 sockfd sbuf snbytes mflags

/-- Witness for the amended C8, with the everywhere-zero syscall layer. -/
theorem fallback_equivalence_w :
    openat_compat_trace 7 200 1 6 0 =
      [.ring_nop 0, .sys_openat 7 200 1 6] ∧
    close_compat_trace 3 0 = [.ring_nop 0, .sys_close 3] ∧
    trace_result zeroEnv (openat_compat_trace 7 200 1 6 0) =
      openat_native_result zeroEnv 7 200 1 6 ∧
    trace_result zeroEnv (close_compat_trace 3 0) = close_native_result zeroEnv 3 ∧
    read_compat_trace 3 100 4 0 0 = [.ring_readv 3 [(100, 4)] 0 0] ∧
    write_compat_trace 3 100 4 0 0 = [.ring_writev 3 [(100, 4)] 0 0] ∧
    trace_result zeroEnv (read_compat_trace 3 100 4 0 0) =
      read_native_result zeroEnv 3 100 4 0 ∧
    trace_result zeroEnv (write_compat_trace 3 100 4 0 0) =
      write_native_result zeroEnv 3 100 4 0 ∧
    recv_compat_trace 5 300 8 2 0 = [.ring_recvmsg 5 [(300, 8)] 2 0] ∧
    send_compat_trace 5 300 8 2 0 = [.ring_sendmsg 5 [(300, 8)] 2 0] ∧
    trace_result zeroEnv (recv_compat_trace 5 300 8 2 0) =
      recv_native_result zeroEnv 5 300 8 2 ∧
    trace_result zeroEnv (send_compat_trace 5 300 8 2 0) =
      send_native_result zeroEnv 5 300 8 2 :=
  fallback_equivalence zeroEnv 3 7 5 100 4 200 1 6 0 300 8 2 0
    ⟨fun _ _ _ _ => rfl, fun _ _ _ _ => rfl, fun _ _ _ _ => rfl, fun _ _ _ _ => rfl⟩

/-- C9: if the root computation already reports done when `run` is entered,
`run` returns the root's result immediately, with the state — in particular
the ring, its submit/wait counters and the CQ consumer — unchanged: no kernel
contact. -/
theorem run_done_returns_immediately {α : Type} (k : KernelModel) (root : RootTask α)
    (fuel : Nat) (s : io_service) (h : root.done s.resolved = true) :
    io_service.run k root (fuel + 1) s = some (root.result s.resolved, s) := by
  rw [io_service.run, if_pos h]

/-- Witness for C9. -/
theorem run_done_returns_immediately_w :
    io_service.run kTwo rootDone 1 sFresh = some (rootDone.result sFresh.resolved, sFresh) :=
  run_done_returns_immediately kTwo rootDone 0 sFresh rfl

/-- C10: `dur2ts` splits a nanosecond duration into whole seconds (truncated
toward zero, as `duration_cast<seconds>` does) and a remainder with
`tv_sec·10⁹ + tv_nsec = d`; for non-negative durations the remainder lies in
`[0, 10⁹)`. -/
theorem dur2ts_correct (d : Int) :
    (dur2ts d).1 = Int.tdiv d 1000000000 ∧
    (dur2ts d).1 * 1000000000 + (dur2ts d).2 = d ∧
    (0 ≤ d → 0 ≤ (dur2ts d).2 ∧ (dur2ts d).2 < 1000000000) := by
  have hsplit : (dur2ts d).2 = Int.tmod d 1000000000 := by
    have h := Int.tdiv_add_tmod d 1000000000
    simp only [dur2ts]
    omega
  refine ⟨rfl, ?_, fun h0 => ?_⟩
  · have h := Int.tdiv_add_tmod d 1000000000
    simp only [dur2ts]
    omega
  · rw [hsplit]
    exact ⟨Int.tmod_nonneg 1000000000 h0, Int.tmod_lt_of_pos d (by norm_num)⟩

/-- Witness for C10 at 1.5 seconds. -/
theorem dur2ts_correct_w :
    (dur2ts 1500000000).1 = Int.tdiv 1500000000 1000000000 ∧
    (dur2ts 1500000000).1 * 1000000000 + (dur2ts 1500000000).2 = 1500000000 ∧
    ((0 : Int) ≤ 1500000000 →
      0 ≤ (dur2ts 1500000000).2 ∧ (dur2ts 1500000000).2 < 1000000000) :=
  dur2ts_correct 1500000000
